import Mathlib

/-!
# TCPServerClient: a verification development

Shallow embedding of the two server variants of the repository,
`src/newServer.cpp` (persisted sequential identifiers, joined session threads)
and `src/server.cpp` (random identifiers with a used-id set, detached session
threads), followed by theorems about them.

Conventions of the embedding:

* `uint32_t` values are natural numbers reduced modulo `2 ^ 32` (`u32`);
* socket handles and system-call return values are integers;
* every system call a function makes is recorded, in program order, as an
  `Event`; the values the calls return are inputs of the model, and so is the
  case of a broadcast `send` that raises `SIGPIPE` and ends the process;
* the side file `./last_id` is part of the state (`SideFile`);
* a function runs without interference from other threads; interleavings are
  modelled separately, by the step function `NewServer.step`.
-/

namespace TCPServer

/-! ## Constants and machine arithmetic -/

/-- The constant `static constexpr int MAX_CLIENTS = 6;`. -/
def MAX_CLIENTS : Nat := 6

/-- The constant `static constexpr int BUFFER_SIZE = 1024;`. -/
def BUFFER_SIZE : Nat := 1024

/-- Reduction of a natural number to the range of `uint32_t`. -/
def u32 (x : Nat) : Nat := x % 2 ^ 32

/-- Decimal text of an unsigned value, as produced by `std::to_string` and by
`operator<<` on an output stream. -/
def to_string (n : Nat) : String := toString n

/-! ## System calls -/

/-- One call made by the server, with the value it returned where the code
can observe it. -/
inductive Event where
  /-- The call `send(sock, buf, len, 0)` returning `ret`. -/
  | send (sock : Int) (buf : String) (len : Nat) (ret : Int)
  /-- The call `select(fd + 1, &readfds, NULL, NULL, &tv)` returning `ret`. -/
  | select (fd : Int) (ret : Int)
  /-- The call `recv(sock, buffer, BUFFER_SIZE, 0)` returning `ret`. -/
  | recv (sock : Int) (ret : Int)
  /-- The call `accept(fd, ...)` returning `ret`. -/
  | accept (fd : Int) (ret : Int)
  /-- The call `close(fd)`. -/
  | close (fd : Int)
  /-- The call `client_threads.emplace_back(&MyServer::handleClient, this, sock)`. -/
  | spawn (sock : Int)
  /-- The call `client_threads.back().detach()`. -/
  | detach (sock : Int)
  /-- The call `thread.join()` on the session thread bound to `sock`. -/
  | join (sock : Int)
  /-- The store `running = false`. -/
  | stop
  /-- The call `send(sock, buf, len, 0)` that raised `SIGPIPE`: the process is
  terminated and the call does not return. -/
  | sigpipe (sock : Int) (buf : String) (len : Nat)
deriving DecidableEq, Repr

/-- How a call of `send` ends. It returns a value, or the peer has closed the
connection and the call raises `SIGPIPE`: both files pass the flags `0` and
install a handler for `SIGINT` only, so the signal terminates the process. -/
inductive SendOutcome where
  | returned (ret : Int)
  | sigpipe
deriving DecidableEq, Repr

/-- How one iteration of the session loop ends: the loop goes on, the loop is
left (`break`), or the process was terminated inside the iteration. -/
inductive Flow where
  | next
  | leave
  | killed
deriving DecidableEq, Repr

/-- The sends to the handle `h` that returned, in the order of the trace:
for each one the buffer passed and the number of bytes requested. -/
def sendsTo (h : Int) : List Event → List (String × Nat)
  | [] => []
  | Event.send sock buf len _ :: rest =>
      if sock = h then (buf, len) :: sendsTo h rest else sendsTo h rest
  | _ :: rest => sendsTo h rest

/-- Whether an event is a `send`. -/
def isSend : Event → Bool
  | Event.send _ _ _ _ => true
  | _ => false

/-- The body of the range-for in `broadcast`: one `send` per registered
socket, in registry order; `out j` tells how the `j`-th call ends. A value
returned is discarded by the code and the loop goes to the next socket; a
call that raises `SIGPIPE` is the last thing the process does. The second
component tells whether the process is still alive after the loop. -/
def sendAll : List Int → String → (Nat → SendOutcome) → Nat → List Event × Bool
  | [], _, _, _ => ([], true)
  | socket :: rest, message, out, j =>
      match out j with
      | SendOutcome.returned ret =>
          (Event.send socket message message.length ret :: (sendAll rest message out (j + 1)).1,
            (sendAll rest message out (j + 1)).2)
      | SendOutcome.sigpipe => ([Event.sigpipe socket message message.length], false)

/-- The function `broadcast` (the same text in both files). -/
def broadcast (client_sockets : List Int) (message : String) (out : Nat → SendOutcome) :
    List Event × Bool :=
  sendAll client_sockets message out 0

/-- The scan of the received bytes in `handleClient` (the same text in both
files): for each byte equal to the newline character (code 10), build the
count message from `client_sockets.size()` and broadcast it. `out i j` tells
how the send to the `j`-th member for the byte at index `i` ends. The scan
stops where a broadcast ends the process; the second component tells whether
the process is still alive after the scan. -/
def scanBuffer (client_sockets : List Int) (out : Nat → Nat → SendOutcome) :
    List Nat → Nat → List Event × Bool
  | [], _ => ([], true)
  | b :: rest, i =>
      if b = 10 then
        if (broadcast client_sockets (to_string client_sockets.length ++ "\n") (out i)).2 then
          ((broadcast client_sockets (to_string client_sockets.length ++ "\n") (out i)).1
              ++ (scanBuffer client_sockets out rest (i + 1)).1,
            (scanBuffer client_sockets out rest (i + 1)).2)
        else
          ((broadcast client_sockets (to_string client_sockets.length ++ "\n") (out i)).1, false)
      else scanBuffer client_sockets out rest (i + 1)

/-- Outcome of `recv`: an error (return value `-1`), or the bytes pending on
the socket, of which the call stores the first `BUFFER_SIZE` at most in
`buffer` (return value their number, `0` at end of stream). -/
inductive RecvResult where
  | error
  | data (pending : List Nat)
deriving DecidableEq, Repr

/-- The value `valread` that `recv` returns. -/
def RecvResult.valread : RecvResult → Int
  | RecvResult.error => -1
  | RecvResult.data pending => ((pending.take BUFFER_SIZE).length : Int)

/-- The bytes that `recv` stored in `buffer[0 .. valread)`. -/
def RecvResult.bytes : RecvResult → List Nat
  | RecvResult.error => []
  | RecvResult.data pending => pending.take BUFFER_SIZE

/-- Where a session thread stands in `handleClient`: before its registration,
between registration and the removal of its handle, or after the removal. -/
inductive Phase where
  | spawned
  | serving
  | finished
deriving DecidableEq, Repr

/-- An element of `client_threads`: the socket bound to the session, whether
the `std::thread` is joinable, and where the session stands. -/
structure Thread where
  client_socket : Int
  joinable : Bool
  phase : Phase
deriving DecidableEq, Repr

/-! ## The side file of the sequential generator -/

/-- The side file `./last_id`: its content when it exists, whether opening
it for writing (`std::ofstream file(ID_FILE)`) succeeds, and how many
characters of a write the medium stores before the write fails (a write
completes when its text is not longer than `room`). -/
structure SideFile where
  content : Option String
  writable : Bool
  room : Nat
deriving DecidableEq, Repr

/-- Result of `file >> stored_id` for a `uint32_t`: a value was read; or the
conversion failed and the library stored `v` (zero, or the largest value on
overflow); or the stream had nothing but white space and the variable was
left as it was. -/
inductive Extracted where
  | value (v : Nat)
  | failed (v : Nat)
  | untouched
deriving DecidableEq, Repr

/-- The white-space characters skipped by formatted input in the C locale. -/
def isspace (c : Char) : Bool := c.toNat = 32 || (9 ≤ c.toNat && c.toNat ≤ 13)

/-- The decimal digits `0` to `9` (character codes 48 to 57). -/
def isdigit (c : Char) : Bool := 48 ≤ c.toNat && c.toNat ≤ 57

/-- Value of a run of decimal digits, most significant first. -/
def digitsValue (ds : List Char) : Nat := ds.foldl (fun a c => 10 * a + (c.toNat - 48)) 0

/-- Formatted extraction of a `uint32_t` from the text of a stream: skip
white space, accept one sign, read the longest run of decimal digits. -/
def extractUInt32 (text : String) : Extracted :=
  match text.toList.dropWhile isspace with
  | [] => Extracted.untouched
  | c :: cs =>
      let body := if c.toNat = 45 ∨ c.toNat = 43 then cs else c :: cs
      let ds := body.takeWhile isdigit
      if ds = [] then Extracted.failed 0
      else if 4294967295 < digitsValue ds then Extracted.failed 4294967295
      else if c.toNat = 45 then Extracted.value (u32 (2 ^ 32 - digitsValue ds))
      else Extracted.value (digitsValue ds)

/-! ## `newServer.cpp` -/

namespace NewServer

/-- Generator state of `newServer.cpp`: the counter `last_id` and the side file. -/
structure IdState where
  last_id : Nat
  file : SideFile
deriving DecidableEq, Repr

/-- The function `loadLastId`: when the side file opens for reading, extract `stored_id`
from it and store it in `last_id`; `uninit` is the indeterminate value of the
uninitialised local `stored_id`. -/
def loadLastId (st : IdState) (uninit : Nat) : IdState :=
  match st.file.content with
  | none => st
  | some text =>
      match extractUInt32 text with
      | Extracted.value v => { st with last_id := v }
      | Extracted.failed v => { st with last_id := v }
      | Extracted.untouched => { st with last_id := u32 uninit }

/-- The function `saveLastId`: open the side file for writing, which empties
it; when the stream is good, write `last_id` as decimal text. The code tests
the open only: the result of the write is not inspected, and the file keeps
the characters that the medium stored. -/
def saveLastId (st : IdState) : IdState :=
  if st.file.writable then
    { st with file := { st.file with
        content := some (String.mk ((to_string st.last_id).toList.take st.file.room)) } }
  else
    st

/-- The function `generateUniqueId`, with the clock reading `seconds_today` (a `uint32_t`)
as input: compute the identifier, store its low 16 bits in `last_id`, save,
return the identifier. -/
def generateUniqueId (st : IdState) (seconds_today : Nat) : Nat × IdState :=
  let new_id := u32 (seconds_today <<< 16) ||| (u32 (st.last_id + 1) &&& 0xFFFF)
  let st1 : IdState := { st with last_id := new_id &&& 0xFFFF }
  (new_id, saveLastId st1)

/-- Tokens returned by successive calls of `generateUniqueId`, one call per
clock reading of the list. -/
def generateMany : IdState → List Nat → List Nat
  | _, [] => []
  | st, s :: rest => (generateUniqueId st s).1 :: generateMany (generateUniqueId st s).2 rest

/-- Generator state of a fresh process: the member initialiser `last_id{0}`
followed by the call of `loadLastId` in the constructor. -/
def startup (file : SideFile) (uninit : Nat) : IdState :=
  loadLastId { last_id := 0, file := file } uninit

/-- The data members of `MyServer` in `newServer.cpp`. -/
structure MyServer where
  server_fd : Int
  client_threads : List Thread
  client_sockets : List Int
  running : Bool
  ids : IdState
deriving DecidableEq, Repr

/-- What the environment supplies to one iteration of the session loop: the
value of `running` read by the loop test, the clock reading, the return
values of the send of the token line, of `select` and of `recv`, and how the
sends of the broadcasts end. -/
structure Iter where
  running : Bool
  seconds_today : Nat
  send_ret : Int
  select_ret : Int
  recv : RecvResult
  bcast_out : Nat → Nat → SendOutcome

/-- The body of `while (running)` in `handleClient`. The third component
tells how the iteration ends. -/
def loopBody (st : MyServer) (client_socket : Int) (it : Iter) : MyServer × List Event × Flow :=
  let g := generateUniqueId st.ids it.seconds_today
  let st1 : MyServer := { st with ids := g.2 }
  let id_str := to_string g.1 ++ "\n"
  let e_send := Event.send client_socket id_str id_str.length it.send_ret
  if it.send_ret ≤ 0 then
    (st1, [e_send], Flow.leave)
  else if it.select_ret > 0 then
    if it.recv.valread ≤ 0 then
      (st1, [e_send, Event.select client_socket it.select_ret,
        Event.recv client_socket it.recv.valread], Flow.leave)
    else
      (st1, [e_send, Event.select client_socket it.select_ret,
        Event.recv client_socket it.recv.valread]
        ++ (scanBuffer st1.client_sockets it.bcast_out it.recv.bytes 0).1,
        if (scanBuffer st1.client_sockets it.bcast_out it.recv.bytes 0).2 then Flow.next
        else Flow.killed)
  else
    (st1, [e_send, Event.select client_socket it.select_ret], Flow.next)

/-- The loop `while (running) { ... }` of `handleClient` followed by the exit
path: removal of the handle from `client_sockets`, then `close`. The list
holds the inputs of the iterations still to come; `none` when it is used up
before the loop ends. When an iteration ends the process, the result is the
state and the calls up to that point, without exit path. -/
def serve : MyServer → Int → List Iter → Option (MyServer × List Event)
  | _, _, [] => none
  | st, client_socket, it :: rest =>
      if it.running then
        let r := loopBody st client_socket it
        match r.2.2 with
        | Flow.next => (serve r.1 client_socket rest).map (fun p => (p.1, r.2.1 ++ p.2))
        | Flow.leave =>
            some ({ r.1 with client_sockets := r.1.client_sockets.filter (fun s => s ≠ client_socket) },
              r.2.1 ++ [Event.close client_socket])
        | Flow.killed => some (r.1, r.2.1)
      else
        some ({ st with client_sockets := st.client_sockets.filter (fun s => s ≠ client_socket) },
          [Event.close client_socket])

/-- The function `handleClient`: registration of the handle, then the loop and the exit path. -/
def handleClient (st : MyServer) (client_socket : Int) (script : List Iter) :
    Option (MyServer × List Event) :=
  serve { st with client_sockets := st.client_sockets ++ [client_socket] } client_socket script

/-- The function `shutdown`, for a call in which every farewell send returns:
`bcast_ret j` is the return value of the farewell send to the `j`-th member.
A joined thread has finished and is no longer joinable. -/
def shutdown (st : MyServer) (bcast_ret : Nat → Int) : MyServer × List Event :=
  let st1 : MyServer := { st with running := false }
  let farewell := (broadcast st1.client_sockets "Thank you\n"
    (fun j => SendOutcome.returned (bcast_ret j))).1
  let closes := st1.client_sockets.map Event.close
  let joins := (st1.client_threads.filter (fun t => t.joinable)).map (fun t => Event.join t.client_socket)
  ({ st1 with
      client_sockets := []
      client_threads := st1.client_threads.map
        (fun t => if t.joinable then { t with joinable := false, phase := Phase.finished } else t) },
    [Event.stop] ++ farewell ++ closes ++ joins ++ [Event.close st.server_fd])

/-- The body of `while (running)` in `run`: `select_ret` is what `select`
returned, `client_socket` what `accept` returned, `send_ret` what the send of
the rejection text returned. -/
def runIteration (st : MyServer) (select_ret client_socket send_ret : Int) :
    MyServer × List Event :=
  if select_ret > 0 then
    if client_socket ≥ 0 then
      if st.client_sockets.length < MAX_CLIENTS then
        ({ st with client_threads := st.client_threads ++
            [{ client_socket := client_socket, joinable := true, phase := Phase.spawned }] },
          [Event.select st.server_fd select_ret, Event.accept st.server_fd client_socket,
            Event.spawn client_socket])
      else
        (st, [Event.select st.server_fd select_ret, Event.accept st.server_fd client_socket,
          Event.send client_socket "server full\n" 12 send_ret, Event.close client_socket])
    else
      (st, [Event.select st.server_fd select_ret, Event.accept st.server_fd client_socket])
  else
    (st, [Event.select st.server_fd select_ret])

/-- The steps of the threads of the server, at the granularity of the
registry: the acceptor lets in an accepted handle (one iteration of `run`
whose `select` and `accept` succeed), the `i`-th session thread registers its
handle (top of `handleClient`), the `i`-th session thread removes its handle
(exit path of `handleClient`), and `shutdown`. -/
inductive Action where
  | admission (client_socket : Int)
  | register (i : Nat)
  | exit (i : Nat)
  | shutdown
deriving DecidableEq, Repr

/-- Effect of one step; `none` when the step is not enabled in the state. -/
def step (st : MyServer) : Action → Option MyServer
  | Action.admission client_socket =>
      if st.running ∧ client_socket ≥ 0 then some (runIteration st 1 client_socket 12).1 else none
  | Action.register i =>
      match st.client_threads.get? i with
      | some t =>
          if t.phase = Phase.spawned then
            some { st with
              client_sockets := st.client_sockets ++ [t.client_socket]
              client_threads := st.client_threads.set i { t with phase := Phase.serving } }
          else none
      | none => none
  | Action.exit i =>
      match st.client_threads.get? i with
      | some t =>
          if t.phase = Phase.serving then
            some { st with
              client_sockets := st.client_sockets.filter (fun s => s ≠ t.client_socket)
              client_threads := st.client_threads.set i { t with phase := Phase.finished } }
          else none
      | none => none
  | Action.shutdown => some (shutdown st (fun _ => 10)).1

/-- The state after a sequence of steps, `none` when one of them is not enabled. -/
def exec : MyServer → List Action → Option MyServer
  | st, [] => some st
  | st, a :: rest => (step st a).bind (fun st1 => exec st1 rest)

/-- The server after construction: nothing registered, no session thread. -/
def init (server_fd : Int) (ids : IdState) : MyServer :=
  { server_fd := server_fd, client_threads := [], client_sockets := [], running := true, ids := ids }

end NewServer

/-! ## `server.cpp` -/

namespace Server

/-- The identifier tried by `generateUniqueId` of `server.cpp` for the clock
reading `base` and the value `r` returned by `rand()`. -/
def candidate (base r : Nat) : Nat := u32 (base <<< 16) ||| (r &&& 0xFFFF)

/-- The function `generateUniqueId` of `server.cpp`: the list holds the values that the
successive calls of `rand()` return. The result is the identifier, the
used-id set after the insertion and the values of `rand()` not consumed;
`none` when the list is used up before the `do ... while` loop ends. -/
def generateUniqueId (used_ids : Finset Nat) (base : Nat) :
    List Nat → Option (Nat × Finset Nat × List Nat)
  | [] => none
  | r :: rest =>
      if candidate base r ∈ used_ids then generateUniqueId used_ids base rest
      else some (candidate base r, insert (candidate base r) used_ids, rest)

/-- Identifiers returned by successive calls of `generateUniqueId`; each call
has its clock reading and its own supply of `rand()` values. -/
def generateMany : Finset Nat → List (Nat × List Nat) → Option (List Nat × Finset Nat)
  | used_ids, [] => some ([], used_ids)
  | used_ids, call :: calls =>
      match generateUniqueId used_ids call.1 call.2 with
      | none => none
      | some r =>
          match generateMany r.2.1 calls with
          | none => none
          | some q => some (r.1 :: q.1, q.2)

/-- The data members of `MyServer` in `server.cpp`. -/
structure MyServer where
  server_fd : Int
  client_threads : List Thread
  client_sockets : List Int
  running : Bool
  used_ids : Finset Nat
deriving DecidableEq

/-- What the environment supplies to one iteration of the session loop. -/
structure Iter where
  running : Bool
  seconds_today : Nat
  rands : List Nat
  send_ret : Int
  select_ret : Int
  recv : RecvResult
  bcast_out : Nat → Nat → SendOutcome

/-- The body of `while (running)` in `handleClient` of `server.cpp`; the
return value of the send of the token line is not inspected. `none` when
`generateUniqueId` does not return on the supplied `rand()` values. -/
def loopBody (st : MyServer) (client_socket : Int) (it : Iter) :
    Option (MyServer × List Event × Flow) :=
  match generateUniqueId st.used_ids it.seconds_today it.rands with
  | none => none
  | some g =>
      let st1 : MyServer := { st with used_ids := g.2.1 }
      let id_str := to_string g.1 ++ "\n"
      let e_send := Event.send client_socket id_str id_str.length it.send_ret
      if it.select_ret > 0 then
        if it.recv.valread ≤ 0 then
          some (st1, [e_send, Event.select client_socket it.select_ret,
            Event.recv client_socket it.recv.valread], Flow.leave)
        else
          some (st1, [e_send, Event.select client_socket it.select_ret,
            Event.recv client_socket it.recv.valread]
            ++ (scanBuffer st1.client_sockets it.bcast_out it.recv.bytes 0).1,
            if (scanBuffer st1.client_sockets it.bcast_out it.recv.bytes 0).2 then Flow.next
            else Flow.killed)
      else
        some (st1, [e_send, Event.select client_socket it.select_ret], Flow.next)

/-- The loop of `handleClient` followed by the exit path (removal of the
handle, then `close`); no exit path when an iteration ends the process. -/
def serve : MyServer → Int → List Iter → Option (MyServer × List Event)
  | _, _, [] => none
  | st, client_socket, it :: rest =>
      if it.running then
        match loopBody st client_socket it with
        | none => none
        | some r =>
            match r.2.2 with
            | Flow.next => (serve r.1 client_socket rest).map (fun p => (p.1, r.2.1 ++ p.2))
            | Flow.leave =>
                some ({ r.1 with client_sockets := r.1.client_sockets.filter (fun s => s ≠ client_socket) },
                  r.2.1 ++ [Event.close client_socket])
            | Flow.killed => some (r.1, r.2.1)
      else
        some ({ st with client_sockets := st.client_sockets.filter (fun s => s ≠ client_socket) },
          [Event.close client_socket])

/-- The function `handleClient` of `server.cpp`. -/
def handleClient (st : MyServer) (client_socket : Int) (script : List Iter) :
    Option (MyServer × List Event) :=
  serve { st with client_sockets := st.client_sockets ++ [client_socket] } client_socket script

/-- The function `shutdown` of `server.cpp` (no join: the session threads
are detached), for a call in which every farewell send returns. -/
def shutdown (st : MyServer) (bcast_ret : Nat → Int) : MyServer × List Event :=
  let st1 : MyServer := { st with running := false }
  let farewell := (broadcast st1.client_sockets "Thank you\n"
    (fun j => SendOutcome.returned (bcast_ret j))).1
  let closes := st1.client_sockets.map Event.close
  ({ st1 with client_sockets := [] },
    [Event.stop] ++ farewell ++ closes ++ [Event.close st.server_fd])

/-- The body of `while (running)` in `run` of `server.cpp`. -/
def runIteration (st : MyServer) (select_ret client_socket send_ret : Int) :
    MyServer × List Event :=
  if select_ret > 0 then
    if client_socket ≥ 0 then
      if st.client_sockets.length < MAX_CLIENTS then
        ({ st with client_threads := st.client_threads ++
            [{ client_socket := client_socket, joinable := false, phase := Phase.spawned }] },
          [Event.select st.server_fd select_ret, Event.accept st.server_fd client_socket,
            Event.spawn client_socket, Event.detach client_socket])
      else
        (st, [Event.select st.server_fd select_ret, Event.accept st.server_fd client_socket,
          Event.send client_socket "server full\n" 12 send_ret, Event.close client_socket])
    else
      (st, [Event.select st.server_fd select_ret, Event.accept st.server_fd client_socket])
  else
    (st, [Event.select st.server_fd select_ret])

end Server

/-! ## Arithmetic of the identifiers -/

theorem u32_lt (x : Nat) : u32 x < 2 ^ 32 := Nat.mod_lt _ (by norm_num)

theorem and_ffff (x : Nat) : x &&& 0xFFFF = x % 65536 := by
  have h := Nat.and_pow_two_sub_one_eq_mod x 16
  norm_num at h
  exact h

theorem u32_shift16 (s : Nat) : u32 (s <<< 16) = 65536 * (s % 65536) := by
  unfold u32
  rw [Nat.shiftLeft_eq]
  norm_num
  omega

theorem mk_or (a b : Nat) (hb : b < 65536) : 65536 * a ||| b = 65536 * a + b := by
  have h := Nat.mul_add_lt_is_or (i := 16) (b := b) (by norm_num; exact hb) a
  norm_num at h
  exact h.symm

/-- Closed form of the identifier computed by `newServer.cpp`. -/
theorem new_id_eq (st : NewServer.IdState) (s : Nat) :
    (NewServer.generateUniqueId st s).1
      = 65536 * (s % 65536) + (st.last_id + 1) % 65536 := by
  simp only [NewServer.generateUniqueId]
  rw [u32_shift16, and_ffff, mk_or _ _ (Nat.mod_lt _ (by norm_num))]
  unfold u32
  omega

theorem saveLastId_last_id (st : NewServer.IdState) :
    (NewServer.saveLastId st).last_id = st.last_id := by
  unfold NewServer.saveLastId
  split <;> rfl

theorem generateUniqueId_counter (st : NewServer.IdState) (s : Nat) :
    (NewServer.generateUniqueId st s).2.last_id
      = (NewServer.generateUniqueId st s).1 % 65536 := by
  simp only [NewServer.generateUniqueId, saveLastId_last_id, and_ffff]

theorem generateUniqueId_last_id (st : NewServer.IdState) (s : Nat) :
    (NewServer.generateUniqueId st s).2.last_id = (st.last_id + 1) % 65536 := by
  rw [generateUniqueId_counter, new_id_eq]
  omega

theorem generateUniqueId_low (st : NewServer.IdState) (s : Nat) :
    (NewServer.generateUniqueId st s).1 % 65536 = (st.last_id + 1) % 65536 := by
  rw [new_id_eq]
  omega

/-- Every token of a run carries, in its low 16 bits, the starting counter
advanced by the position of the call. -/
theorem generateMany_low (ss : List Nat) :
    ∀ (st : NewServer.IdState) (x : Nat), x ∈ NewServer.generateMany st ss →
      ∃ i, i < ss.length ∧ x % 65536 = (st.last_id + 1 + i) % 65536 := by
  induction ss with
  | nil => intro st x hx; simp [NewServer.generateMany] at hx
  | cons s rest ih =>
      intro st x hx
      simp only [NewServer.generateMany, List.mem_cons] at hx
      rcases hx with hx | hx
      · exact ⟨0, by simp, by rw [hx, generateUniqueId_low]⟩
      · obtain ⟨i, hi, hxi⟩ := ih _ x hx
        rw [generateUniqueId_last_id] at hxi
        refine ⟨i + 1, by simp; omega, ?_⟩
        omega

theorem generateMany_nodup (ss : List Nat) :
    ∀ (st : NewServer.IdState), ss.length ≤ 65536 → (NewServer.generateMany st ss).Nodup := by
  induction ss with
  | nil => intro st _; simp [NewServer.generateMany]
  | cons s rest ih =>
      intro st hlen
      simp only [List.length_cons] at hlen
      simp only [NewServer.generateMany, List.nodup_cons]
      refine ⟨?_, ih _ (by omega)⟩
      intro hmem
      obtain ⟨i, hi, hxi⟩ := generateMany_low rest _ _ hmem
      rw [generateUniqueId_low, generateUniqueId_last_id] at hxi
      omega

/-! ## Decimal text and formatted extraction -/

theorem digitChar_isdigit (d : Nat) (hd : d < 10) :
    isdigit (Nat.digitChar d) = true ∧ (Nat.digitChar d).toNat - 48 = d := by
  interval_cases d <;> exact ⟨by decide, by decide⟩

/-- The digit producer of `toString` on naturals yields decimal digits only,
at least one, and they denote the number converted. -/
theorem toDigitsCore_digits (fuel : Nat) :
    ∀ (n : Nat) (ds : List Char), n < fuel → (∀ c ∈ ds, isdigit c = true) →
      (∀ c ∈ Nat.toDigitsCore 10 fuel n ds, isdigit c = true)
        ∧ Nat.toDigitsCore 10 fuel n ds ≠ []
        ∧ (Nat.toDigitsCore 10 fuel n ds).foldl (fun a c => 10 * a + (c.toNat - 48)) 0
            = ds.foldl (fun a c => 10 * a + (c.toNat - 48)) n := by
  induction fuel with
  | zero => intro n ds h; omega
  | succ fuel ih =>
      intro n ds hn hds
      have hd := digitChar_isdigit (n % 10) (Nat.mod_lt _ (by norm_num))
      have hds2 : ∀ c ∈ Nat.digitChar (n % 10) :: ds, isdigit c = true := by
        intro c hc
        rcases List.mem_cons.1 hc with h | h
        · rw [h]; exact hd.1
        · exact hds c h
      unfold Nat.toDigitsCore
      simp only
      split
      · refine ⟨hds2, by simp, ?_⟩
        simp only [List.foldl_cons, hd.2]
        congr 1
        omega
      · obtain ⟨h1, h2, h3⟩ := ih (n / 10) (Nat.digitChar (n % 10) :: ds) (by omega) hds2
        refine ⟨h1, h2, ?_⟩
        rw [h3]
        simp only [List.foldl_cons, hd.2]
        congr 1
        omega

theorem to_string_toList (n : Nat) : (to_string n).toList = Nat.toDigits 10 n := rfl

theorem isdigit_bounds (c : Char) (h : isdigit c = true) : 48 ≤ c.toNat ∧ c.toNat ≤ 57 := by
  simpa [isdigit] using h

/-- Extraction from a text made of decimal digits only returns their value. -/
theorem extract_digits (l : List Char) (hne : l ≠ []) (hd : ∀ c ∈ l, isdigit c = true)
    (hv : digitsValue l ≤ 4294967295) (text : String) (ht : text.toList = l) :
    extractUInt32 text = Extracted.value (digitsValue l) := by
  cases l with
  | nil => exact absurd rfl hne
  | cons c cs =>
      have hc := isdigit_bounds c (hd c (List.mem_cons_self _ _))
      have hsp : isspace c = false := by
        simp [isspace]; omega
      have htw : List.takeWhile isdigit (c :: cs) = c :: cs :=
        List.takeWhile_eq_self_iff.2 hd
      have hdw : List.dropWhile isspace (c :: cs) = c :: cs := by
        simp [List.dropWhile_cons, hsp]
      unfold extractUInt32
      rw [ht, hdw]
      have h45 : ¬ (c.toNat = 45 ∨ c.toNat = 43) := by omega
      have h45b : ¬ c.toNat = 45 := by omega
      simp only [if_neg h45, htw, if_neg h45b, if_neg (Nat.not_lt.2 hv)]
      simp

/-- Reading back the decimal text of a 32-bit value gives the value. -/
theorem extract_to_string (K : Nat) (hK : K < 2 ^ 32) :
    extractUInt32 (to_string K) = Extracted.value K := by
  obtain ⟨h1, h2, h3⟩ := toDigitsCore_digits (K + 1) K [] (by omega) (by simp)
  have hv : digitsValue (Nat.toDigits 10 K) = K := by
    simpa [digitsValue, Nat.toDigits] using h3
  have := extract_digits (Nat.toDigits 10 K) h2 h1 (by rw [hv]; omega) (to_string K)
    (to_string_toList K)
  rw [this, hv]

/-- A write that the medium stores in full leaves the text written. -/
theorem stored_in_full (text : String) (room : Nat) (h : text.length ≤ room) :
    String.mk (text.toList.take room) = text := by
  cases text with
  | mk l =>
      have hl : l.length ≤ room := h
      simp only [String.toList, List.take_of_length_le hl]

/-- What `saveLastId` leaves in the side file when the open succeeds: the
characters of the counter text that the medium stored, the previous content
being discarded; the whole text when the write completes, the empty file when
nothing could be stored. -/
theorem saveLastId_opened (st : NewServer.IdState) (hw : st.file.writable = true) :
    (NewServer.saveLastId st).file.content
        = some (String.mk ((to_string st.last_id).toList.take st.file.room))
      ∧ ((to_string st.last_id).length ≤ st.file.room →
          (NewServer.saveLastId st).file.content = some (to_string st.last_id))
      ∧ (st.file.room = 0 → (NewServer.saveLastId st).file.content = some "") := by
  have h1 : (NewServer.saveLastId st).file.content
      = some (String.mk ((to_string st.last_id).toList.take st.file.room)) := by
    simp only [NewServer.saveLastId, hw, if_true]
  refine ⟨h1, ?_, ?_⟩
  · intro hroom
    rw [h1, stored_in_full _ _ hroom]
  · intro h0
    rw [h1, h0]
    rfl

/-! ## Claims about the sequential generator -/

/-- C2, as stated, at a side file that cannot be opened for writing: the call
generates its token and advances the counter, and nothing is written (here
the file does not even exist afterwards). -/
theorem C2_file_not_written :
    (NewServer.generateUniqueId ⟨0, ⟨none, false, 16⟩⟩ 0).2.file.content ≠
      some (to_string ((NewServer.generateUniqueId ⟨0, ⟨none, false, 16⟩⟩ 0).1 &&& 0xFFFF)) := by
  decide

/-- C2, amended: for every stored counter `last` (a 32-bit unsigned value)
and every seconds-since-midnight value `s` in `0..86399`, the call returns
`(s << 16) | ((last + 1) & 0xFFFF)` computed in 32-bit unsigned arithmetic
and leaves the counter equal to `token & 0xFFFF`; when the side file opens
for writing and the write of the counter text completes, the content of the
file on return is the decimal text of that counter; when the side file does
not open, it is left as it was. -/
theorem C2_generateUniqueId_formula (st : NewServer.IdState) (s : Nat)
    (hlast : st.last_id < 2 ^ 32) (hs : s ≤ 86399) :
    (NewServer.generateUniqueId st s).1
        = ((s * 2 ^ 16) % 2 ^ 32) ||| (((st.last_id + 1) % 2 ^ 32) &&& 0xFFFF)
      ∧ (NewServer.generateUniqueId st s).1 < 2 ^ 32
      ∧ (NewServer.generateUniqueId st s).2.last_id
          = (NewServer.generateUniqueId st s).1 &&& 0xFFFF
      ∧ (st.file.writable = true →
          (to_string ((NewServer.generateUniqueId st s).1 &&& 0xFFFF)).length ≤ st.file.room →
          (NewServer.generateUniqueId st s).2.file.content
            = some (to_string ((NewServer.generateUniqueId st s).1 &&& 0xFFFF)))
      ∧ (st.file.writable = false → (NewServer.generateUniqueId st s).2.file = st.file) := by
  have hid := new_id_eq st s
  refine ⟨?_, ?_, ?_, ?_, ?_⟩
  · simp only [NewServer.generateUniqueId, u32, Nat.shiftLeft_eq]
  · rw [hid]; omega
  · rw [generateUniqueId_counter, and_ffff]
  · intro hw hroom
    exact (saveLastId_opened
      { st with last_id := (NewServer.generateUniqueId st s).1 &&& 0xFFFF } hw).2.1 hroom
  · intro hw
    simp only [NewServer.generateUniqueId, NewServer.saveLastId, hw]
    rfl

/-- Instance of C2 (amended): counter 41, second 3, side file that opens and
stores the write. -/
theorem C2_generateUniqueId_formula_witness :
    (41 : Nat) < 2 ^ 32 ∧ (3 : Nat) ≤ 86399
      ∧ (NewServer.generateUniqueId ⟨41, ⟨none, true, 16⟩⟩ 3).1 = 196650
      ∧ (NewServer.generateUniqueId ⟨41, ⟨none, true, 16⟩⟩ 3).2.file.content = some "42" :=
  ⟨by decide, by decide,
    (C2_generateUniqueId_formula ⟨41, ⟨none, true, 16⟩⟩ 3 (by decide) (by decide)).1.trans
      (by decide),
    ((C2_generateUniqueId_formula ⟨41, ⟨none, true, 16⟩⟩ 3 (by decide) (by decide)).2.2.2.1 rfl
      (by decide)).trans (by decide)⟩

/-- C3: for every initial counter, every `n < 65536` and every sequence of
`n` seconds-since-midnight values in `0..86399`, the `n` tokens returned by
`n` successive calls of the sequential `generateUniqueId` are pairwise
distinct; and two consecutive calls never return the same token. -/
theorem C3_sequential_ids_distinct (st : NewServer.IdState) (ss : List Nat)
    (hlast : st.last_id < 2 ^ 32) (hn : ss.length < 65536) (hs : ∀ s ∈ ss, s ≤ 86399) :
    (NewServer.generateMany st ss).Nodup
      ∧ ∀ s1 s2 : Nat, (NewServer.generateUniqueId st s1).1
          ≠ (NewServer.generateUniqueId (NewServer.generateUniqueId st s1).2 s2).1 := by
  refine ⟨generateMany_nodup ss st (by omega), ?_⟩
  intro s1 s2 h
  have h1 := generateUniqueId_low st s1
  have h2 := generateUniqueId_low (NewServer.generateUniqueId st s1).2 s2
  rw [generateUniqueId_last_id, ← h] at h2
  omega

/-- Instance of C3: three calls starting from counter 65535, the last one at
second 65536. -/
theorem C3_sequential_ids_distinct_witness :
    (NewServer.generateMany ⟨65535, ⟨none, true, 16⟩⟩ [0, 0, 65536]) = [0, 1, 2]
      ∧ (NewServer.generateMany ⟨65535, ⟨none, true, 16⟩⟩ [0, 0, 65536]).Nodup :=
  ⟨by decide,
    (C3_sequential_ids_distinct ⟨65535, ⟨none, true, 16⟩⟩ [0, 0, 65536] (by decide) (by decide)
      (by decide)).1⟩

/-- C10: for every seconds-since-midnight value `s` with `s + 65536 ≤ 86399`
and every stored counter, the token computed at second `s` equals the token
computed at second `s + 65536`; second 0 and second 65536 yield the same
token for the same counter; and the high 16 bits of a token always equal the
seconds value modulo 65536. -/
theorem C10_time_field_truncated (st : NewServer.IdState) (s : Nat)
    (hlast : st.last_id < 2 ^ 32) (hs : s + 65536 ≤ 86399) :
    (NewServer.generateUniqueId st s).1 = (NewServer.generateUniqueId st (s + 65536)).1
      ∧ (NewServer.generateUniqueId st 0).1 = (NewServer.generateUniqueId st 65536).1
      ∧ ∀ t : Nat, (NewServer.generateUniqueId st t).1 >>> 16 = t % 65536 := by
  refine ⟨?_, ?_, ?_⟩
  · rw [new_id_eq, new_id_eq]; omega
  · rw [new_id_eq, new_id_eq]
  · intro t
    rw [new_id_eq, Nat.shiftRight_eq_div_pow]
    norm_num
    omega

/-- Instance of C10: counter 7, seconds 20000 and 85536. -/
theorem C10_time_field_truncated_witness :
    (NewServer.generateUniqueId ⟨7, ⟨none, true, 16⟩⟩ 20000).1 = 1310720008
      ∧ (NewServer.generateUniqueId ⟨7, ⟨none, true, 16⟩⟩ 20000).1
          = (NewServer.generateUniqueId ⟨7, ⟨none, true, 16⟩⟩ (20000 + 65536)).1 :=
  ⟨by decide,
    (C10_time_field_truncated ⟨7, ⟨none, true, 16⟩⟩ 20000 (by decide) (by decide)).1⟩

/-- C4: for every `K` in `0..65535`, if `saveLastId` writes the side file
while the counter is `K` (the file opens and the write completes) and a fresh
process then runs `loadLastId` on that file, the loaded counter is `K` and
the first `generateUniqueId` call of the new process returns a token whose
low 16 bits equal `(K + 1) & 0xFFFF`; when the side file is absent the loaded
counter is 0. -/
theorem C4_restart_round_trip (st : NewServer.IdState) (K : Nat) (hK : K ≤ 65535)
    (hst : st.last_id = K) (hw : st.file.writable = true)
    (hroom : (to_string K).length ≤ st.file.room) (w : Bool) (room uninit s : Nat) :
    (NewServer.saveLastId st).file.content = some (to_string K)
      ∧ (NewServer.startup ⟨(NewServer.saveLastId st).file.content, w, room⟩ uninit).last_id = K
      ∧ (NewServer.generateUniqueId
            (NewServer.startup ⟨(NewServer.saveLastId st).file.content, w, room⟩ uninit) s).1
            &&& 0xFFFF
          = (K + 1) &&& 0xFFFF
      ∧ (NewServer.startup ⟨none, w, room⟩ uninit).last_id = 0 := by
  have hsave : (NewServer.saveLastId st).file.content = some (to_string K) := by
    rw [← hst]
    exact (saveLastId_opened st hw).2.1 (by rw [hst]; exact hroom)
  have hload : (NewServer.startup ⟨(NewServer.saveLastId st).file.content, w, room⟩ uninit).last_id
      = K := by
    rw [hsave]
    simp only [NewServer.startup, NewServer.loadLastId, extract_to_string K (by omega)]
  refine ⟨hsave, hload, ?_, rfl⟩
  rw [and_ffff, and_ffff, generateUniqueId_low, hload]

/-- Instance of C4: counter 65535 saved, then loaded by a fresh process. -/
theorem C4_restart_round_trip_witness :
    (NewServer.saveLastId ⟨65535, ⟨none, true, 16⟩⟩).file.content = some "65535"
      ∧ (NewServer.startup
          ⟨(NewServer.saveLastId ⟨65535, ⟨none, true, 16⟩⟩).file.content, true, 16⟩ 9).last_id
          = 65535 :=
  ⟨(C4_restart_round_trip ⟨65535, ⟨none, true, 16⟩⟩ 65535 (by decide) rfl rfl (by decide)
      true 16 9 0).1.trans (by decide),
    (C4_restart_round_trip ⟨65535, ⟨none, true, 16⟩⟩ 65535 (by decide) rfl rfl (by decide)
      true 16 9 0).2.1⟩

/-! ## The random generator of `server.cpp` -/

theorem candidate_low (base r : Nat) : Server.candidate base r &&& 0xFFFF = r &&& 0xFFFF := by
  unfold Server.candidate
  rw [u32_shift16, and_ffff, and_ffff, mk_or _ _ (Nat.mod_lt _ (by norm_num))]
  omega

/-- What a returning call of the random `generateUniqueId` guarantees. -/
theorem generateUniqueId_some (used_ids : Finset Nat) (base : Nat) :
    ∀ (rands : List Nat) (id : Nat) (used : Finset Nat) (rest : List Nat),
      Server.generateUniqueId used_ids base rands = some (id, used, rest) →
        id ∉ used_ids ∧ used = insert id used_ids
          ∧ ∃ drawn r, rands = drawn ++ r :: rest ∧ id = Server.candidate base r
              ∧ ∀ x ∈ drawn, Server.candidate base x ∈ used_ids := by
  intro rands
  induction rands with
  | nil => intro id used rest h; simp [Server.generateUniqueId] at h
  | cons r rs ih =>
      intro id used rest h
      unfold Server.generateUniqueId at h
      split at h
      · rename_i hmem
        obtain ⟨h1, h2, drawn, r0, h3, h4, h5⟩ := ih id used rest h
        refine ⟨h1, h2, r :: drawn, r0, by rw [h3]; rfl, h4, ?_⟩
        intro x hx
        rcases List.mem_cons.1 hx with hx | hx
        · rw [hx]; exact hmem
        · exact h5 x hx
      · rename_i hmem
        simp only [Option.some.injEq, Prod.mk.injEq] at h
        obtain ⟨h1, h2, h3⟩ := h
        subst h1
        exact ⟨hmem, h2.symm, [], r, by rw [h3]; rfl, rfl, by simp⟩

/-- The retry loop ends as soon as `rand()` yields a value whose candidate
is not in the used-id set. -/
theorem generateUniqueId_isSome (used_ids : Finset Nat) (base : Nat) :
    ∀ (rands : List Nat), (∃ r ∈ rands, Server.candidate base r ∉ used_ids) →
      (Server.generateUniqueId used_ids base rands).isSome = true := by
  intro rands
  induction rands with
  | nil => intro h; simp at h
  | cons r rs ih =>
      intro h
      unfold Server.generateUniqueId
      split
      · rename_i hmem
        apply ih
        obtain ⟨x, hx, hfresh⟩ := h
        rcases List.mem_cons.1 hx with hx | hx
        · rw [hx] at hfresh; exact absurd hmem hfresh
        · exact ⟨x, hx, hfresh⟩
      · rfl

/-- Identifiers returned by a run of calls are pairwise distinct, none of
them was in the used-id set at the start, and the set only grows. -/
theorem generateMany_fresh :
    ∀ (calls : List (Nat × List Nat)) (used_ids : Finset Nat) (ids : List Nat) (used : Finset Nat),
      Server.generateMany used_ids calls = some (ids, used) →
        ids.Nodup ∧ (∀ x ∈ ids, x ∉ used_ids) ∧ used_ids ⊆ used
          ∧ ids.length = calls.length := by
  intro calls
  induction calls with
  | nil =>
      intro used_ids ids used h
      simp only [Server.generateMany, Option.some.injEq, Prod.mk.injEq] at h
      obtain ⟨h1, h2⟩ := h
      subst h1 h2
      simp
  | cons call calls ih =>
      intro used_ids ids used h
      unfold Server.generateMany at h
      split at h
      · exact absurd h (by simp)
      · rename_i r hr
        split at h
        · exact absurd h (by simp)
        · rename_i q hq
          simp only [Option.some.injEq, Prod.mk.injEq] at h
          obtain ⟨h1, h2⟩ := h
          subst h1 h2
          obtain ⟨g1, g2, -⟩ := generateUniqueId_some used_ids call.1 call.2 r.1 r.2.1 r.2.2 hr
          obtain ⟨i1, i2, i3, i4⟩ := ih r.2.1 q.1 q.2 hq
          rw [g2] at i2 i3
          refine ⟨List.nodup_cons.2 ⟨?_, i1⟩, ?_, ?_, by simp [i4]⟩
          · intro hmem
            exact i2 r.1 hmem (Finset.mem_insert_self _ _)
          · intro x hx
            rcases List.mem_cons.1 hx with hx | hx
            · rw [hx]; exact g1
            · intro hxu
              exact i2 x hx (Finset.mem_insert_of_mem hxu)
          · exact (Finset.subset_insert _ _).trans i3

/-- C8: for every used-id set `U`, every seconds value `s` and every
sequence of `rand()` results on which the retry loop of the random
`generateUniqueId` terminates, the returned id is not a member of `U`, its
low 16 bits are the low 16 bits of the last `rand()` result drawn (all
earlier draws gave used ids), and the used-id set after the call is `U` with
the returned id added; hence the ids returned by any run of calls of one
process (used-id set empty at start) are pairwise distinct. The loop does
terminate whenever some supplied `rand()` value gives an unused id. -/
theorem C8_random_ids_fresh (U : Finset Nat) (s : Nat) (rands : List Nat)
    (id : Nat) (used : Finset Nat) (rest : List Nat)
    (hret : Server.generateUniqueId U s rands = some (id, used, rest)) :
    id ∉ U
      ∧ (∃ drawn r, rands = drawn ++ r :: rest ∧ id &&& 0xFFFF = r &&& 0xFFFF
          ∧ id = (((s * 2 ^ 16) % 2 ^ 32) ||| (r &&& 0xFFFF))
          ∧ ∀ x ∈ drawn, Server.candidate s x ∈ U)
      ∧ used = insert id U
      ∧ (∀ x, x ∈ U → x ∈ used)
      ∧ (∀ (calls : List (Nat × List Nat)) (ids : List Nat) (final : Finset Nat),
          Server.generateMany ∅ calls = some (ids, final) → ids.Nodup)
      ∧ (∀ (V : Finset Nat) (b : Nat) (rs : List Nat),
          (∃ r ∈ rs, Server.candidate b r ∉ V) → (Server.generateUniqueId V b rs).isSome = true) := by
  obtain ⟨h1, h2, drawn, r, h3, h4, h5⟩ := generateUniqueId_some U s rands id used rest hret
  refine ⟨h1, ⟨drawn, r, h3, ?_, ?_, h5⟩, h2, ?_, ?_, ?_⟩
  · rw [h4, candidate_low]
  · rw [h4]; simp only [Server.candidate, u32, Nat.shiftLeft_eq]
  · intro x hx; rw [h2]; exact Finset.mem_insert_of_mem hx
  · intro calls ids final h
    exact (generateMany_fresh calls ∅ ids final h).1
  · intro V b rs h
    exact generateUniqueId_isSome V b rs h

/-- Instance of C8: at second 1 with id 65541 already used, `rand()` yields
5 (a used id), then 65543 (low bits 7): the call returns 65543. -/
theorem C8_random_ids_fresh_witness :
    Server.generateUniqueId {65541} 1 [5, 65543, 9] = some (65543, {65543, 65541}, [9])
      ∧ (65543 : Nat) ∉ ({65541} : Finset Nat) :=
  ⟨by decide,
    (C8_random_ids_fresh {65541} 1 [5, 65543, 9] 65543 {65543, 65541} [9] (by decide)).1⟩

/-! ## Broadcast -/

theorem sendsTo_append (h : Int) (a b : List Event) :
    sendsTo h (a ++ b) = sendsTo h a ++ sendsTo h b := by
  induction a with
  | nil => rfl
  | cons e rest ih =>
      cases e with
      | send sock buf len r =>
          simp only [List.cons_append, sendsTo]
          split <;> simp [ih]
      | _ => exact ih

/-- A broadcast all of whose sends return reaches every member: the process
is alive afterwards, and the calls are one send of the message per entry of
the registry. -/
theorem sendAll_returning (message : String) (out : Nat → SendOutcome)
    (hout : ∀ j, out j ≠ SendOutcome.sigpipe) (M : List Int) :
    ∀ j, (sendAll M message out j).2 = true
      ∧ (sendAll M message out j).1.length = M.length
      ∧ (∀ h, sendsTo h (sendAll M message out j).1
          = List.replicate (M.count h) (message, message.length))
      ∧ (∀ e ∈ (sendAll M message out j).1,
          ∃ h ∈ M, ∃ r, e = Event.send h message message.length r) := by
  induction M with
  | nil =>
      intro j
      exact ⟨rfl, rfl, fun h => rfl, fun e he => by simp [sendAll] at he⟩
  | cons socket rest ih =>
      intro j
      obtain ⟨i1, i2, i3, i4⟩ := ih (j + 1)
      cases hj : out j with
      | sigpipe => exact absurd hj (hout j)
      | returned r =>
          simp only [sendAll, hj]
          refine ⟨i1, by simp [i2], ?_, ?_⟩
          · intro h
            simp only [sendsTo, i3, List.count_cons]
            by_cases hs : socket = h
            · simp [hs, List.replicate_succ]
            · simp [hs]
          · intro e he
            rcases List.mem_cons.1 he with he | he
            · exact ⟨socket, List.mem_cons_self _ _, r, he⟩
            · obtain ⟨h, hh, r0, hr⟩ := i4 e he
              exact ⟨h, List.mem_cons_of_mem _ hh, r0, hr⟩

/-- A scan all of whose sends return sends to a handle one count message per
newline byte and per occurrence of the handle in the registry, and nothing
else; the process is alive afterwards. -/
theorem scanBuffer_returning (M : List Int) (out : Nat → Nat → SendOutcome)
    (hout : ∀ i j, out i j ≠ SendOutcome.sigpipe) (bytes : List Nat) :
    ∀ i, (scanBuffer M out bytes i).2 = true
      ∧ (scanBuffer M out bytes i).1.length = bytes.count 10 * M.length
      ∧ (∀ h, sendsTo h (scanBuffer M out bytes i).1
          = List.replicate (bytes.count 10 * M.count h)
              (to_string M.length ++ "\n", (to_string M.length ++ "\n").length))
      ∧ (∀ e ∈ (scanBuffer M out bytes i).1,
          ∃ h ∈ M, ∃ r, e = Event.send h (to_string M.length ++ "\n")
            (to_string M.length ++ "\n").length r) := by
  induction bytes with
  | nil =>
      intro i
      exact ⟨rfl, by simp [scanBuffer], fun h => by simp [scanBuffer, sendsTo],
        fun e he => by simp [scanBuffer] at he⟩
  | cons b rest ih =>
      intro i
      obtain ⟨i1, i2, i3, i4⟩ := ih (i + 1)
      obtain ⟨b1, b2, b3, b4⟩ :=
        sendAll_returning (to_string M.length ++ "\n") (out i) (hout i) M 0
      by_cases hb : b = 10
      · simp only [scanBuffer, hb, if_true, broadcast, b1, List.count_cons_self]
        refine ⟨i1, ?_, ?_, ?_⟩
        · rw [List.length_append, b2, i2]
          ring
        · intro h
          rw [sendsTo_append, b3, i3, ← List.replicate_add]
          congr 1
          ring
        · intro e he
          rcases List.mem_append.1 he with he | he
          · exact b4 e he
          · exact i4 e he
      · have hb2 : (b == 10) = false := by simpa using hb
        simp only [scanBuffer, if_neg hb, List.count_cons, hb2]
        exact ⟨i1, by simpa using i2, fun h => by simpa using i3 h, i4⟩

/-! ## Claims about sessions, admission and shutdown -/

/-- The count broadcast when every send returns. For every read of `n`
bytes (`1 <= n <= 1024`) holding exactly `k` newline bytes and every registry
content `M` of distinct handles, a scan in which every send call returns
sends to every handle of `M`, the sender included, exactly `k` messages, each
the decimal text of the size of `M` followed by a newline, and nothing else,
whatever values the calls return. The iteration of `handleClient` that reads
these bytes consists, in both files, of the token send, the poll, the read
and then this scan. -/
theorem count_broadcast_when_sends_return (M : List Int) (bytes : List Nat) (k : Nat)
    (hn1 : 1 ≤ bytes.length) (hn2 : bytes.length ≤ BUFFER_SIZE)
    (hk : bytes.count 10 = k) (hM : M.Nodup) :
    (∀ out : Nat → Nat → SendOutcome, (∀ i j, out i j ≠ SendOutcome.sigpipe) →
        (∀ h ∈ M, sendsTo h (scanBuffer M out bytes 0).1
            = List.replicate k (to_string M.length ++ "\n", (to_string M.length ++ "\n").length))
          ∧ (∀ h, h ∉ M → sendsTo h (scanBuffer M out bytes 0).1 = [])
          ∧ (scanBuffer M out bytes 0).1.length = k * M.length
          ∧ (∀ e ∈ (scanBuffer M out bytes 0).1, isSend e = true)
          ∧ (scanBuffer M out bytes 0).2 = true)
      ∧ (∀ (st : NewServer.MyServer) (sock : Int) (it : NewServer.Iter),
          st.client_sockets = M → 0 < it.send_ret → 0 < it.select_ret →
          it.recv = RecvResult.data bytes →
            (NewServer.loopBody st sock it).2.1
                = [Event.send sock
                      (to_string (NewServer.generateUniqueId st.ids it.seconds_today).1 ++ "\n")
                      (to_string (NewServer.generateUniqueId st.ids it.seconds_today).1 ++ "\n").length
                      it.send_ret,
                    Event.select sock it.select_ret, Event.recv sock bytes.length]
                  ++ (scanBuffer M it.bcast_out bytes 0).1
              ∧ (NewServer.loopBody st sock it).1.client_sockets = M
              ∧ (NewServer.loopBody st sock it).2.2
                  = if (scanBuffer M it.bcast_out bytes 0).2 then Flow.next else Flow.killed)
      ∧ (∀ (st : Server.MyServer) (sock : Int) (it : Server.Iter) (g : Nat × Finset Nat × List Nat),
          st.client_sockets = M → 0 < it.select_ret → it.recv = RecvResult.data bytes →
          Server.generateUniqueId st.used_ids it.seconds_today it.rands = some g →
            Server.loopBody st sock it
              = some ({ st with used_ids := g.2.1 },
                  [Event.send sock (to_string g.1 ++ "\n") (to_string g.1 ++ "\n").length it.send_ret,
                    Event.select sock it.select_ret, Event.recv sock bytes.length]
                  ++ (scanBuffer M it.bcast_out bytes 0).1,
                  if (scanBuffer M it.bcast_out bytes 0).2 then Flow.next else Flow.killed)) := by
  refine ⟨?_, ?_, ?_⟩
  · intro out hout
    obtain ⟨s1, s2, s3, s4⟩ := scanBuffer_returning M out hout bytes 0
    refine ⟨?_, ?_, ?_, ?_, s1⟩
    · intro h hh
      rw [s3, hk, List.count_eq_one_of_mem hM hh, Nat.mul_one]
    · intro h hh
      rw [s3, List.count_eq_zero_of_not_mem hh, Nat.mul_zero]
      rfl
    · rw [s2, hk]
    · intro e he
      obtain ⟨h, -, r, hr⟩ := s4 e he
      rw [hr]; rfl
  · intro st sock it hst hsend hsel hrecv
    have h1 : ¬ it.send_ret ≤ 0 := by omega
    have h2 : ¬ ((bytes.length : Int) ≤ 0) := by omega
    have h3 : it.select_ret > 0 := hsel
    simp only [NewServer.loopBody, if_neg h1, if_pos h3, hst, hrecv,
      RecvResult.valread, RecvResult.bytes, List.take_of_length_le hn2, if_neg h2, and_self]
  · intro st sock it g hst hsel hrecv hg
    have h2 : ¬ ((bytes.length : Int) ≤ 0) := by omega
    have h3 : it.select_ret > 0 := hsel
    simp only [Server.loopBody, hg, if_pos h3, hst, hrecv,
      RecvResult.valread, RecvResult.bytes, List.take_of_length_le hn2, if_neg h2]

/-- C5 at a failing input. Registry of handles 4 and 5, the peer of 4 has
closed its connection; the session on handle 5 reads two newline bytes
(`k = 2`). In the first broadcast both sends return; in the second the send
to handle 4 raises `SIGPIPE`, which ends the process: handle 5 is sent the
count once, not twice, and the session never reaches its exit path. This is
so in both files. -/
theorem C5_sigpipe_stops_delivery :
    (NewServer.serve ⟨3, [], [4, 5], true, ⟨6, ⟨none, true, 16⟩⟩⟩ 5
        [⟨true, 1, 6, 1, RecvResult.data [10, 10],
          fun i j => if i = 1 ∧ j = 0 then SendOutcome.sigpipe else SendOutcome.returned 2⟩]).map
          (fun p => p.2)
      = some [Event.send 5 "65543\n" 6 6, Event.select 5 1, Event.recv 5 2,
          Event.send 4 "2\n" 2 2, Event.send 5 "2\n" 2 2, Event.sigpipe 4 "2\n" 2]
      ∧ (Server.serve ⟨3, [], [4, 5], true, ∅⟩ 5
        [⟨true, 1, [7], 6, 1, RecvResult.data [10, 10],
          fun i j => if i = 1 ∧ j = 0 then SendOutcome.sigpipe else SendOutcome.returned 2⟩]).map
          (fun p => p.2)
      = some [Event.send 5 "65543\n" 6 6, Event.select 5 1, Event.recv 5 2,
          Event.send 4 "2\n" 2 2, Event.send 5 "2\n" 2 2, Event.sigpipe 4 "2\n" 2]
      ∧ ([10, 10] : List Nat).count 10 = 2
      ∧ sendsTo 5 (scanBuffer [4, 5]
          (fun i j => if i = 1 ∧ j = 0 then SendOutcome.sigpipe else SendOutcome.returned 2)
          [10, 10] 0).1 = [("2\n", 2)]
      ∧ (scanBuffer [4, 5]
          (fun i j => if i = 1 ∧ j = 0 then SendOutcome.sigpipe else SendOutcome.returned 2)
          [10, 10] 0).2 = false := by
  refine ⟨by decide, by decide, by decide, by decide, by decide⟩

/-- C6: in both files, for every state whose registry holds 6 handles and
every newly accepted handle `h`, the iteration of `run` sends to `h` the 12
bytes of the text `server full` with its newline, closes `h`, and leaves the
state (registry, session threads, generator) unchanged: the only other calls
are the `select` and the `accept` of the iteration, no session is spawned
and no token is sent. -/
theorem C6_capacity_rejection (h select_ret send_ret : Int)
    (hsel : 0 < select_ret) (hh : 0 ≤ h) :
    (∀ st : NewServer.MyServer, st.client_sockets.length = 6 →
        NewServer.runIteration st select_ret h send_ret
          = (st, [Event.select st.server_fd select_ret, Event.accept st.server_fd h,
              Event.send h "server full\n" 12 send_ret, Event.close h]))
      ∧ (∀ st : Server.MyServer, st.client_sockets.length = 6 →
        Server.runIteration st select_ret h send_ret
          = (st, [Event.select st.server_fd select_ret, Event.accept st.server_fd h,
              Event.send h "server full\n" 12 send_ret, Event.close h]))
      ∧ ("server full\n").length = 12 := by
  have h1 : select_ret > 0 := hsel
  have h2 : h ≥ 0 := hh
  refine ⟨?_, ?_, by decide⟩
  · intro st hst
    simp only [NewServer.runIteration, if_pos h1, if_pos h2, hst, MAX_CLIENTS,
      Nat.lt_irrefl, if_false]
  · intro st hst
    simp only [Server.runIteration, if_pos h1, if_pos h2, hst, MAX_CLIENTS,
      Nat.lt_irrefl, if_false]

/-- Instance of C6: six registered handles, handle 10 accepted. -/
theorem C6_capacity_rejection_witness :
    NewServer.runIteration
        ⟨3, [], [4, 5, 6, 7, 8, 9], true, ⟨0, ⟨none, true, 16⟩⟩⟩ 1 10 12
      = (⟨3, [], [4, 5, 6, 7, 8, 9], true, ⟨0, ⟨none, true, 16⟩⟩⟩,
          [Event.select 3 1, Event.accept 3 10, Event.send 10 "server full\n" 12 12,
            Event.close 10]) :=
  (C6_capacity_rejection 10 1 12 (by decide) (by decide)).1
    ⟨3, [], [4, 5, 6, 7, 8, 9], true, ⟨0, ⟨none, true, 16⟩⟩⟩ rfl

/-- In `newServer.cpp`, a failed send of the token line ends the session in
that iteration: the only call after the send is the `close` of the handle,
made after the handle was removed from the registry. -/
theorem newServer_exits_on_failed_send (st : NewServer.MyServer) (sock : Int)
    (it : NewServer.Iter) (rest : List NewServer.Iter)
    (hrun : it.running = true) (hfail : it.send_ret ≤ 0) :
    NewServer.serve st sock (it :: rest)
      = some ({ st with
                  ids := (NewServer.generateUniqueId st.ids it.seconds_today).2
                  client_sockets := st.client_sockets.filter (fun s => s ≠ sock) },
          [Event.send sock
              (to_string (NewServer.generateUniqueId st.ids it.seconds_today).1 ++ "\n")
              (to_string (NewServer.generateUniqueId st.ids it.seconds_today).1 ++ "\n").length
              it.send_ret,
            Event.close sock]) := by
  simp [NewServer.serve, NewServer.loopBody, hrun, hfail]

/-- C9 at a failing input. Session on handle 5, the send of the token line
returns `-1` in both iterations; `select` times out in the first and reports
the socket readable in the second, where `recv` fails. In `server.cpp` the
session polls after the first failed send, goes round the loop, sends a
second token, polls and reads, and only then leaves; in `newServer.cpp` the
same inputs end the session right after the first send. -/
theorem C9_server_polls_after_failed_send :
    (Server.serve ⟨3, [], [5], true, ∅⟩ 5
        [⟨true, 1, [7], -1, 0, RecvResult.error, fun _ _ => SendOutcome.returned 0⟩,
          ⟨true, 1, [8], -1, 1, RecvResult.error, fun _ _ => SendOutcome.returned 0⟩]).map (fun p => (p.1.client_sockets, p.2))
      = some ([], [Event.send 5 "65543\n" 6 (-1), Event.select 5 0,
          Event.send 5 "65544\n" 6 (-1), Event.select 5 1, Event.recv 5 (-1), Event.close 5])
      ∧ (NewServer.serve ⟨3, [], [5], true, ⟨6, ⟨none, true, 16⟩⟩⟩ 5
        [⟨true, 1, -1, 0, RecvResult.error, fun _ _ => SendOutcome.returned 0⟩,
          ⟨true, 1, -1, 1, RecvResult.error, fun _ _ => SendOutcome.returned 0⟩]).map (fun p => (p.1.client_sockets, p.2))
      = some ([], [Event.send 5 "65543\n" 6 (-1), Event.close 5]) := by
  constructor <;> decide

/-- C1 at a failing input. Seven connections are accepted while no spawned
session has registered yet: each admission sees an empty registry and spawns
a session; the seven sessions then register, and the registry holds seven
handles. So the bound of 6 is not an invariant of the reachable states. -/
theorem C1_registry_exceeds_capacity :
    (NewServer.exec (NewServer.init 3 ⟨0, ⟨none, true, 16⟩⟩)
        [NewServer.Action.admission 4, NewServer.Action.admission 5, NewServer.Action.admission 6,
          NewServer.Action.admission 7, NewServer.Action.admission 8, NewServer.Action.admission 9,
          NewServer.Action.admission 10,
          NewServer.Action.register 0, NewServer.Action.register 1, NewServer.Action.register 2,
          NewServer.Action.register 3, NewServer.Action.register 4, NewServer.Action.register 5,
          NewServer.Action.register 6]).map (fun st => st.client_sockets)
      = some [4, 5, 6, 7, 8, 9, 10]
      ∧ ¬ (∀ (acts : List NewServer.Action) (st : NewServer.MyServer),
            NewServer.exec (NewServer.init 3 ⟨0, ⟨none, true, 16⟩⟩) acts = some st →
              st.client_sockets.length ≤ MAX_CLIENTS) := by
  have h : (NewServer.exec (NewServer.init 3 ⟨0, ⟨none, true, 16⟩⟩)
        [NewServer.Action.admission 4, NewServer.Action.admission 5, NewServer.Action.admission 6,
          NewServer.Action.admission 7, NewServer.Action.admission 8, NewServer.Action.admission 9,
          NewServer.Action.admission 10,
          NewServer.Action.register 0, NewServer.Action.register 1, NewServer.Action.register 2,
          NewServer.Action.register 3, NewServer.Action.register 4, NewServer.Action.register 5,
          NewServer.Action.register 6]).map (fun st => st.client_sockets)
      = some [4, 5, 6, 7, 8, 9, 10] := by decide
  refine ⟨h, ?_⟩
  intro hall
  cases hex : NewServer.exec (NewServer.init 3 ⟨0, ⟨none, true, 16⟩⟩)
        [NewServer.Action.admission 4, NewServer.Action.admission 5, NewServer.Action.admission 6,
          NewServer.Action.admission 7, NewServer.Action.admission 8, NewServer.Action.admission 9,
          NewServer.Action.admission 10,
          NewServer.Action.register 0, NewServer.Action.register 1, NewServer.Action.register 2,
          NewServer.Action.register 3, NewServer.Action.register 4, NewServer.Action.register 5,
          NewServer.Action.register 6] with
  | none => rw [hex] at h; simp at h
  | some st =>
      have hle := hall _ st hex
      rw [hex] at h
      simp only [Option.map_some', Option.some.injEq] at h
      rw [h] at hle
      simp [MAX_CLIENTS] at hle

end TCPServer
